import Mathlib

/-!
Verification of the `microwave` package of the megawave repository
(`internal/microwave`): a microwave-oven control panel with a 4-digit
MM:SS display, digit entry, a START button and a cancellable per-second
countdown.

Modelling choices (shallow embedding of the Go code):

* The mutable `Microwave` struct becomes an immutable record; each Go
  method becomes a pure function `Microwave → ... → Microwave × List Event`
  returning the new state together with the diagnostic (log) events it
  emits, in emission order.  The mutex only serialises the operations,
  so the sequential functions are the faithful denotation of each call.
* `digits` is `[4]int` in Go, but every value ever stored in a slot is
  non-negative: `PressDigit` stores `d` only after rejecting `d < 0`,
  and the countdown stores quotients/remainders of non-negative
  quantities.  The slots are therefore modelled as `Nat`; the
  `PressDigit` argument stays `Int` so the rejection of negative input
  is modelled exactly.
* The Go `context.Context` is modelled as a cancellation schedule
  `ctx : Nat → Bool`: `ctx k = true` means the context's Done channel is
  closed when the countdown reaches its `k`-th one-second `select`
  (counting from 0).  The countdown checks cancellation exactly there,
  mirroring the `select { case <-ctx.Done() ... case <-time.After(1s) }`.
* The countdown's `seconds` parameter is a Go `int`; the loop only runs
  while `seconds > 0` and `PressStart` always passes `totalSeconds ≥ 1`,
  so it is modelled as `Nat` (a non-positive Go value behaves exactly
  like `0`: the loop body never runs).
* `slog` calls become constructors of `Event` carrying the attributes
  the code logs; metric/span emissions accompany the same program
  points and carry strictly less information, so they are not modelled
  separately.
-/

/-- Diagnostic events emitted by the microwave, one constructor per
`slog` call site in the Go source, carrying the logged attributes. -/
inductive Event where
  /-- `logger.Warn("invalid digit ignored", "digit", d)` -/
  | invalidDigit (d : Int)
  /-- `logger.Info("digit pressed", "digit", d, "cooking", cooking)` -/
  | digitPressed (d : Int) (cooking : Bool)
  /-- `logger.Warn("digit ignored while cooking", "digit", d)` -/
  | digitIgnoredCooking (d : Int)
  /-- `logger.Warn("max digits reached, display not updated", "digit", d)` -/
  | maxDigits (d : Int)
  /-- `logger.Debug("display updated", "display", display, "digitCount", digitCount)` -/
  | displayUpdated (display : String) (digitCount : Nat)
  /-- `logger.Info("start pressed", "cooking", cooking)` -/
  | startPressed (cooking : Bool)
  /-- `logger.WarnContext(ctx, "start ignored, already cooking")` -/
  | startIgnored
  /-- `logger.Warn("cannot start with zero time")` -/
  | zeroTime
  /-- `logger.InfoContext(ctx, "cooking started", "display", display, "seconds", seconds)` -/
  | cookingStarted (display : String) (seconds : Nat)
  /-- `logger.WarnContext(ctx, "unexpected overflowMins > 1", "overflowMins", o)` -/
  | overflowWarn (overflowMins : Int)
  /-- `logger.DebugContext(ctx, "tick", "display", display, "remaining", remaining)` -/
  | tick (display : String) (remaining : Nat)
  /-- `logger.InfoContext(ctx, "cooking complete")` -/
  | cookingComplete
  /-- `logger.InfoContext(ctx, "cooking canceled")` -/
  | cookingCanceled
deriving DecidableEq, Repr

/-- The `Microwave` struct: `digits [4]int` (slots `d0..d3`, each always
assigned a non-negative value, see module comment), `digitCount int`,
`isCooking bool`.  The logger/tracer/meter fields carry no state
relevant to behaviour. -/
structure Microwave where
  d0 : Nat
  d1 : Nat
  d2 : Nat
  d3 : Nat
  digitCount : Nat
  isCooking : Bool
deriving DecidableEq, Repr

namespace Microwave

/-- `New()`: all fields zeroed. -/
def New : Microwave :=
  { d0 := 0, d1 := 0, d2 := 0, d3 := 0, digitCount := 0, isCooking := false }

/-- `displayString`: `fmt.Sprintf("%d%d:%d%d", digits[0], digits[1], digits[2], digits[3])`. -/
def displayString (m : Microwave) : String :=
  toString m.d0 ++ toString m.d1 ++ ":" ++ toString m.d2 ++ toString m.d3

/-- `Display()`: the locked read of `displayString`. -/
def Display (m : Microwave) : String := m.displayString

/-- `IsCooking()`: the locked read of `isCooking`. -/
def IsCooking (m : Microwave) : Bool := m.isCooking

/-- `totalSeconds`: `(digits[0]*10+digits[1])*60 + (digits[2]*10+digits[3])`. -/
def totalSeconds (m : Microwave) : Nat :=
  (m.d0 * 10 + m.d1) * 60 + (m.d2 * 10 + m.d3)

/-- `PressDigit(d int)`: reject out-of-range digits, log the press,
ignore while cooking or at 4-digit capacity, otherwise shift left and
append `d`. -/
def PressDigit (m : Microwave) (d : Int) : Microwave × List Event :=
  if d < 0 ∨ d > 9 then
    (m, [.invalidDigit d])
  else
    let cooking := m.isCooking
    if cooking then
      (m, [.digitPressed d cooking, .digitIgnoredCooking d])
    else if m.digitCount ≥ 4 then
      (m, [.digitPressed d cooking, .maxDigits d])
    else
      let m' : Microwave :=
        { m with d0 := m.d1, d1 := m.d2, d2 := m.d3, d3 := d.toNat,
                 digitCount := m.digitCount + 1 }
      (m', [.digitPressed d cooking, .displayUpdated m'.displayString m'.digitCount])

/-- One iteration of the countdown loop body up to (not including) the
`select`: convert `remaining` to minutes/seconds, apply the 99-minute
overflow policy (`overflowMins := mins - 99`, Go `int` arithmetic, hence
computed in `Int`), write the four digit slots and emit the tick (and
possibly overflow-warning) events. -/
def tickUpdate (remaining : Nat) (m : Microwave) : Microwave × List Event :=
  let mins := remaining / 60
  let secs := remaining % 60
  let overflowMins : Int := (mins : Int) - 99
  let warn : List Event :=
    if overflowMins > 1 then [.overflowWarn overflowMins] else []
  let mins' := if overflowMins = 1 then 99 else if overflowMins > 1 then 99 else mins
  let secs' := if overflowMins = 1 then secs + 60 else if overflowMins > 1 then 99 else secs
  let m' : Microwave :=
    { m with d0 := mins' / 10, d1 := mins' % 10, d2 := secs' / 10, d3 := secs' % 10 }
  (m', warn ++ [.tick m'.displayString remaining])

/-- `countdown(ctx, seconds)`: loop while `seconds > 0`, each iteration
updating the display via `tickUpdate` and then waiting one second or
returning `false` on cancellation; afterwards reset the digits to zero,
emit the final `00:00` tick and return `true`.  `k` indexes the
one-second waits so that `ctx k` is the cancellation state observed at
the `k`-th `select`; the Go method is `countdown ctx 0 seconds m`. -/
def countdown (ctx : Nat → Bool) (k : Nat) : Nat → Microwave → Bool × Microwave × List Event
  | 0, m =>
    let m' : Microwave := { m with d0 := 0, d1 := 0, d2 := 0, d3 := 0 }
    (true, m', [.tick m'.displayString 0])
  | s + 1, m =>
    let t := tickUpdate (s + 1) m
    if ctx k then
      (false, t.1, t.2)
    else
      let r := countdown ctx (k + 1) s t.1
      (r.1, r.2.1, t.2 ++ r.2.2)

/-- `PressStart(ctx)`: log the press; ignore if already cooking; ignore
with a warning if the displayed time is zero; otherwise mark cooking,
run the countdown, then unconditionally clear cooking, digits and
digit count, and log completed vs canceled. -/
def PressStart (ctx : Nat → Bool) (m : Microwave) : Microwave × List Event :=
  let cooking := m.isCooking
  if cooking then
    (m, [.startPressed cooking, .startIgnored])
  else
    let seconds := m.totalSeconds
    if seconds = 0 then
      (m, [.startPressed cooking, .zeroTime])
    else
      let preDisplay := m.displayString
      let m1 : Microwave := { m with isCooking := true }
      let r := countdown ctx 0 seconds m1
      let m2 : Microwave :=
        { r.2.1 with isCooking := false, d0 := 0, d1 := 0, d2 := 0, d3 := 0,
                     digitCount := 0 }
      (m2, [.startPressed cooking, .cookingStarted preDisplay seconds]
             ++ r.2.2
             ++ [if r.1 then .cookingComplete else .cookingCanceled])

end Microwave

/-- Fold `PressDigit` over a list of presses, keeping only the state. -/
def pressMany (m : Microwave) (ds : List Int) : Microwave :=
  ds.foldl (fun s d => (s.PressDigit d).1) m

/-- A public operation on the oven: a digit press or a START press with
its cancellation schedule.  (`Display`/`IsCooking` are pure reads.) -/
inductive Op where
  | digit (d : Int)
  | start (ctx : Nat → Bool)

/-- Run a sequence of public operations, keeping only the state. -/
def runOps (m : Microwave) : List Op → Microwave
  | [] => m
  | Op.digit d :: rest => runOps (m.PressDigit d).1 rest
  | Op.start ctx :: rest => runOps (m.PressStart ctx).1 rest

/-- All four digit slots hold single decimal digits. -/
def DigitsOk (m : Microwave) : Prop :=
  m.d0 ≤ 9 ∧ m.d1 ≤ 9 ∧ m.d2 ≤ 9 ∧ m.d3 ≤ 9

instance : DecidablePred DigitsOk := fun m => by
  unfold DigitsOk; infer_instance

/-- `s` is a well-formed display: two decimal digits, a colon, two
decimal digits. -/
def isMMSS (s : String) : Bool :=
  match s.data with
  | [a, b, c, d, e] => a.isDigit && b.isDigit && (c == ':') && d.isDigit && e.isDigit
  | _ => false

/-- Which diagnostic event records both the pressed value and the
cooking flag (the `"digit pressed"` log line). -/
def eventDigitRecord : Event → Option (Int × Bool)
  | .digitPressed d c => some (d, c)
  | _ => none

/-! ### Helper lemmas -/

/-- A valid digit press on a non-cooking oven with spare capacity shifts
the slots left and appends the digit. -/
theorem Microwave.PressDigit_apply (m : Microwave) (d : Int)
    (h0 : 0 ≤ d) (h9 : d ≤ 9) (hc : m.isCooking = false) (hn : m.digitCount < 4) :
    (m.PressDigit d).1 =
      { m with d0 := m.d1, d1 := m.d2, d2 := m.d3, d3 := d.toNat,
               digitCount := m.digitCount + 1 } := by
  unfold Microwave.PressDigit
  rw [if_neg (by omega)]
  simp only [hc, Bool.false_eq_true, if_false]
  rw [if_neg (by omega)]

theorem digitsOk_pressDigit (m : Microwave) (d : Int) (h : DigitsOk m) :
    DigitsOk (m.PressDigit d).1 := by
  obtain ⟨hA, hB, hC, hD⟩ := h
  simp only [Microwave.PressDigit]
  split_ifs <;> dsimp only [DigitsOk] <;> omega

theorem digitsOk_tickUpdate (r : Nat) (m : Microwave) (h : r ≤ 6039) :
    DigitsOk (Microwave.tickUpdate r m).1 := by
  simp only [Microwave.tickUpdate]
  split_ifs <;> dsimp only [DigitsOk] <;> omega

theorem digitsOk_countdown : ∀ (s : Nat) (ctx : Nat → Bool) (k : Nat) (m : Microwave),
    s ≤ 6039 → DigitsOk (Microwave.countdown ctx k s m).2.1 := by
  intro s
  induction s with
  | zero =>
    intro ctx k m _
    simp only [Microwave.countdown]
    dsimp only [DigitsOk]
    omega
  | succ s ih =>
    intro ctx k m h
    simp only [Microwave.countdown]
    cases hctx : ctx k with
    | true =>
      simp only [hctx, if_true]
      exact digitsOk_tickUpdate _ _ h
    | false =>
      simp only [hctx, Bool.false_eq_true, if_false]
      exact ih ctx (k + 1) _ (by omega)

theorem digitsOk_pressStart (ctx : Nat → Bool) (m : Microwave) (h : DigitsOk m) :
    DigitsOk (m.PressStart ctx).1 := by
  obtain ⟨hA, hB, hC, hD⟩ := h
  simp only [Microwave.PressStart]
  split_ifs <;> dsimp only [DigitsOk] <;> omega

theorem toString_digit_data (n : Nat) (h : n ≤ 9) :
    (toString n).data = [Nat.digitChar n] := by
  interval_cases n <;> decide

theorem colon_data : (":" : String).data = [':'] := rfl

theorem digitChar_isDigit (n : Nat) (h : n ≤ 9) : (Nat.digitChar n).isDigit = true := by
  interval_cases n <;> decide

theorem displayString_data (m : Microwave) (h : DigitsOk m) :
    m.displayString.data =
      [Nat.digitChar m.d0, Nat.digitChar m.d1, ':', Nat.digitChar m.d2, Nat.digitChar m.d3] := by
  obtain ⟨hA, hB, hC, hD⟩ := h
  simp [Microwave.displayString, String.data_append, colon_data,
    toString_digit_data _ hA, toString_digit_data _ hB,
    toString_digit_data _ hC, toString_digit_data _ hD]

theorem isMMSS_displayString (m : Microwave) (h : DigitsOk m) :
    isMMSS m.displayString = true := by
  obtain ⟨hA, hB, hC, hD⟩ := h
  rw [isMMSS, displayString_data m ⟨hA, hB, hC, hD⟩]
  simp [digitChar_isDigit _ hA, digitChar_isDigit _ hB,
    digitChar_isDigit _ hC, digitChar_isDigit _ hD]

theorem displayString_length (m : Microwave) (h : DigitsOk m) :
    m.displayString.length = 5 := by
  rw [String.length, displayString_data m h]
  rfl

/-! ### Claim theorems -/

/-- C7: While `isCooking` is true, no call to `PressDigit`, for any digit
value whatsoever, changes `digits` or `digitCount` (indeed the state is
unchanged). -/
theorem C7_cooking_freezes_digits (m : Microwave) (d : Int) (h : m.isCooking = true) :
    (m.PressDigit d).1 = m := by
  simp only [Microwave.PressDigit, h]
  split_ifs <;> rfl

theorem C7_witness :
    (Microwave.PressDigit ⟨1, 2, 3, 4, 4, true⟩ 5).1 = ⟨1, 2, 3, 4, 4, true⟩ :=
  C7_cooking_freezes_digits ⟨1, 2, 3, 4, 4, true⟩ 5 rfl

/-- C8: If the total displayed seconds computed from the digits is 0 when
`PressStart` is called (oven not cooking), the call leaves the state
unchanged — in particular it never sets `isCooking` to true — and its
diagnostics are exactly the start-pressed event followed by the
"cannot start with zero time" warning, so no cook cycle starts. -/
theorem C8_zero_time_never_starts (ctx : Nat → Bool) (m : Microwave)
    (hc : m.isCooking = false) (hz : m.totalSeconds = 0) :
    (m.PressStart ctx).1 = m ∧ (m.PressStart ctx).1.isCooking = false ∧
    (m.PressStart ctx).2 = [Event.startPressed false, Event.zeroTime] := by
  simp [Microwave.PressStart, hc, hz]

theorem C8_witness :
    (Microwave.New.PressStart (fun _ => false)).1 = Microwave.New ∧
    (Microwave.New.PressStart (fun _ => false)).1.isCooking = false ∧
    (Microwave.New.PressStart (fun _ => false)).2 =
      [Event.startPressed false, Event.zeroTime] :=
  C8_zero_time_never_starts (fun _ => false) Microwave.New rfl rfl

/-- C9: When `digitCount` is 4 and the oven is not cooking, any further
`PressDigit` with a valid digit leaves the state — hence `digits`,
`digitCount` and the displayed string — unchanged. -/
theorem C9_capacity_frame (m : Microwave) (d : Int) (hc : m.isCooking = false)
    (hn : m.digitCount = 4) (h0 : 0 ≤ d) (h9 : d ≤ 9) :
    (m.PressDigit d).1 = m ∧ (m.PressDigit d).1.Display = m.Display ∧
    (m.PressDigit d).1.digitCount = m.digitCount := by
  have h : (m.PressDigit d).1 = m := by
    simp only [Microwave.PressDigit]
    rw [if_neg (by omega)]
    simp only [hc, Bool.false_eq_true, if_false]
    rw [if_pos (by omega)]
  exact ⟨h, by rw [h], by rw [h]⟩

theorem C9_witness :
    ((Microwave.PressDigit ⟨1, 2, 3, 4, 4, false⟩ 7).1 = ⟨1, 2, 3, 4, 4, false⟩ ∧
     (Microwave.PressDigit ⟨1, 2, 3, 4, 4, false⟩ 7).1.Display =
       (⟨1, 2, 3, 4, 4, false⟩ : Microwave).Display ∧
     (Microwave.PressDigit ⟨1, 2, 3, 4, 4, false⟩ 7).1.digitCount =
       (⟨1, 2, 3, 4, 4, false⟩ : Microwave).digitCount) :=
  C9_capacity_frame ⟨1, 2, 3, 4, 4, false⟩ 7 rfl rfl (by decide) (by decide)

/-- The display contents the spec predicts after pressing the digit
sequence `ds`: the pressed digits in press order in the rightmost
slots, left-padded with zeros to 4 positions.  (Spec-side definition,
named from the claim's words, for comparison with `pressMany`.) -/
def paddedDigits (ds : List Int) : List Nat :=
  List.replicate (4 - ds.length) 0 ++ ds.map Int.toNat

/-- C1: for every sequence of at most 4 valid digit presses on a fresh,
non-cooking oven, the state holds exactly the pressed digits in press
order in the rightmost slots, left-padded with zeros, and `Display`
is their zero-padded `MM:SS` rendering. -/
theorem C1_display_after_digit_entries (ds : List Int) (hlen : ds.length ≤ 4)
    (hd : ∀ d ∈ ds, 0 ≤ d ∧ d ≤ 9) :
    (pressMany Microwave.New ds).d0 = (paddedDigits ds).getD 0 0 ∧
    (pressMany Microwave.New ds).d1 = (paddedDigits ds).getD 1 0 ∧
    (pressMany Microwave.New ds).d2 = (paddedDigits ds).getD 2 0 ∧
    (pressMany Microwave.New ds).d3 = (paddedDigits ds).getD 3 0 ∧
    (pressMany Microwave.New ds).Display =
      toString ((paddedDigits ds).getD 0 0) ++ toString ((paddedDigits ds).getD 1 0) ++ ":" ++
      toString ((paddedDigits ds).getD 2 0) ++ toString ((paddedDigits ds).getD 3 0) ∧
    isMMSS (pressMany Microwave.New ds).Display = true := by
  rcases ds with _ | ⟨a, _ | ⟨b, _ | ⟨c, _ | ⟨d, _ | ⟨e, tl⟩⟩⟩⟩⟩
  · decide
  · obtain ⟨ha0, ha9⟩ := hd a (by simp)
    have h1 : (Microwave.New.PressDigit a).1 = ⟨0, 0, 0, a.toNat, 1, false⟩ :=
      Microwave.PressDigit_apply Microwave.New a ha0 ha9 rfl (by decide)
    have hstate : pressMany Microwave.New [a] = ⟨0, 0, 0, a.toNat, 1, false⟩ := by
      simp only [pressMany, List.foldl]
      rw [h1]
    refine ⟨?_, ?_, ?_, ?_, ?_, ?_⟩ <;> rw [hstate] <;>
      first
      | rfl
      | exact isMMSS_displayString _ (by dsimp only [DigitsOk]; omega)
  · obtain ⟨ha0, ha9⟩ := hd a (by simp)
    obtain ⟨hb0, hb9⟩ := hd b (by simp)
    have h1 : (Microwave.New.PressDigit a).1 = ⟨0, 0, 0, a.toNat, 1, false⟩ :=
      Microwave.PressDigit_apply Microwave.New a ha0 ha9 rfl (by decide)
    have h2 : ((⟨0, 0, 0, a.toNat, 1, false⟩ : Microwave).PressDigit b).1 =
        ⟨0, 0, a.toNat, b.toNat, 2, false⟩ :=
      Microwave.PressDigit_apply _ b hb0 hb9 rfl (by omega : (1 : Nat) < 4)
    have hstate : pressMany Microwave.New [a, b] = ⟨0, 0, a.toNat, b.toNat, 2, false⟩ := by
      simp only [pressMany, List.foldl]
      rw [h1, h2]
    refine ⟨?_, ?_, ?_, ?_, ?_, ?_⟩ <;> rw [hstate] <;>
      first
      | rfl
      | exact isMMSS_displayString _ (by dsimp only [DigitsOk]; omega)
  · obtain ⟨ha0, ha9⟩ := hd a (by simp)
    obtain ⟨hb0, hb9⟩ := hd b (by simp)
    obtain ⟨hc0, hc9⟩ := hd c (by simp)
    have h1 : (Microwave.New.PressDigit a).1 = ⟨0, 0, 0, a.toNat, 1, false⟩ :=
      Microwave.PressDigit_apply Microwave.New a ha0 ha9 rfl (by decide)
    have h2 : ((⟨0, 0, 0, a.toNat, 1, false⟩ : Microwave).PressDigit b).1 =
        ⟨0, 0, a.toNat, b.toNat, 2, false⟩ :=
      Microwave.PressDigit_apply _ b hb0 hb9 rfl (by omega : (1 : Nat) < 4)
    have h3 : ((⟨0, 0, a.toNat, b.toNat, 2, false⟩ : Microwave).PressDigit c).1 =
        ⟨0, a.toNat, b.toNat, c.toNat, 3, false⟩ :=
      Microwave.PressDigit_apply _ c hc0 hc9 rfl (by omega : (2 : Nat) < 4)
    have hstate : pressMany Microwave.New [a, b, c] =
        ⟨0, a.toNat, b.toNat, c.toNat, 3, false⟩ := by
      simp only [pressMany, List.foldl]
      rw [h1, h2, h3]
    refine ⟨?_, ?_, ?_, ?_, ?_, ?_⟩ <;> rw [hstate] <;>
      first
      | rfl
      | exact isMMSS_displayString _ (by dsimp only [DigitsOk]; omega)
  · obtain ⟨ha0, ha9⟩ := hd a (by simp)
    obtain ⟨hb0, hb9⟩ := hd b (by simp)
    obtain ⟨hc0, hc9⟩ := hd c (by simp)
    obtain ⟨hd0, hd9⟩ := hd d (by simp)
    have h1 : (Microwave.New.PressDigit a).1 = ⟨0, 0, 0, a.toNat, 1, false⟩ :=
      Microwave.PressDigit_apply Microwave.New a ha0 ha9 rfl (by decide)
    have h2 : ((⟨0, 0, 0, a.toNat, 1, false⟩ : Microwave).PressDigit b).1 =
        ⟨0, 0, a.toNat, b.toNat, 2, false⟩ :=
      Microwave.PressDigit_apply _ b hb0 hb9 rfl (by omega : (1 : Nat) < 4)
    have h3 : ((⟨0, 0, a.toNat, b.toNat, 2, false⟩ : Microwave).PressDigit c).1 =
        ⟨0, a.toNat, b.toNat, c.toNat, 3, false⟩ :=
      Microwave.PressDigit_apply _ c hc0 hc9 rfl (by omega : (2 : Nat) < 4)
    have h4 : ((⟨0, a.toNat, b.toNat, c.toNat, 3, false⟩ : Microwave).PressDigit d).1 =
        ⟨a.toNat, b.toNat, c.toNat, d.toNat, 4, false⟩ :=
      Microwave.PressDigit_apply _ d hd0 hd9 rfl (by omega : (3 : Nat) < 4)
    have hstate : pressMany Microwave.New [a, b, c, d] =
        ⟨a.toNat, b.toNat, c.toNat, d.toNat, 4, false⟩ := by
      simp only [pressMany, List.foldl]
      rw [h1, h2, h3, h4]
    refine ⟨?_, ?_, ?_, ?_, ?_, ?_⟩ <;> rw [hstate] <;>
      first
      | rfl
      | exact isMMSS_displayString _ (by dsimp only [DigitsOk]; omega)
  · simp at hlen

theorem C1_witness :
    ((pressMany Microwave.New [1, 3, 5]).d0 = (paddedDigits [1, 3, 5]).getD 0 0 ∧
     (pressMany Microwave.New [1, 3, 5]).d1 = (paddedDigits [1, 3, 5]).getD 1 0 ∧
     (pressMany Microwave.New [1, 3, 5]).d2 = (paddedDigits [1, 3, 5]).getD 2 0 ∧
     (pressMany Microwave.New [1, 3, 5]).d3 = (paddedDigits [1, 3, 5]).getD 3 0 ∧
     (pressMany Microwave.New [1, 3, 5]).Display =
       toString ((paddedDigits [1, 3, 5]).getD 0 0) ++
       toString ((paddedDigits [1, 3, 5]).getD 1 0) ++ ":" ++
       toString ((paddedDigits [1, 3, 5]).getD 2 0) ++
       toString ((paddedDigits [1, 3, 5]).getD 3 0) ∧
     isMMSS (pressMany Microwave.New [1, 3, 5]).Display = true) :=
  C1_display_after_digit_entries [1, 3, 5] (by decide) (by decide)

theorem Display_mk (a b c d cnt : Nat) (ck : Bool) :
    (⟨a, b, c, d, cnt, ck⟩ : Microwave).Display =
      toString a ++ toString b ++ ":" ++ toString c ++ toString d := rfl

theorem totalSeconds_le (m : Microwave) (h : DigitsOk m) : m.totalSeconds ≤ 6039 := by
  obtain ⟨hA, hB, hC, hD⟩ := h
  dsimp only [Microwave.totalSeconds]
  omega

/-- C2 (counterexample): the countdown accepts the starting input 6040
(nothing validates it), and its very first tick — frozen here by an
immediately-canceled context — writes 10 into the tens-of-seconds slot,
so the digit-range invariant fails and the display is the 6-character
string `99:100`, not a 5-character `MM:SS`. -/
theorem C2_counterexample :
    (Microwave.countdown (fun _ => true) 0 6040 Microwave.New).2.1.d2 = 10 ∧
    ¬ DigitsOk (Microwave.countdown (fun _ => true) 0 6040 Microwave.New).2.1 ∧
    (Microwave.countdown (fun _ => true) 0 6040 Microwave.New).2.1.Display = "99:100" ∧
    (Microwave.countdown (fun _ => true) 0 6040 Microwave.New).2.1.Display.length = 6 ∧
    isMMSS (Microwave.countdown (fun _ => true) 0 6040 Microwave.New).2.1.Display = false := by
  decide

/-- C2 (amended): the digit-range invariant `DigitsOk` (each slot in
[0,9]) holds initially and is preserved by `PressDigit`, by `PressStart`,
and by every countdown tick and countdown run whose remaining-seconds
input is at most 6039 — which covers every input `PressStart` can pass,
since `totalSeconds` of digit-valid states is at most 99:99 = 6039
seconds — and in every digit-valid state `Display` returns a 5-character
`MM:SS` string (two digits, a colon, two digits). -/
theorem C2_digits_invariant :
    DigitsOk Microwave.New
    ∧ (∀ (m : Microwave) (d : Int), DigitsOk m → DigitsOk (m.PressDigit d).1)
    ∧ (∀ (r : Nat) (m : Microwave), r ≤ 6039 → DigitsOk (Microwave.tickUpdate r m).1)
    ∧ (∀ (ctx : Nat → Bool) (k s : Nat) (m : Microwave), s ≤ 6039 →
        DigitsOk (Microwave.countdown ctx k s m).2.1)
    ∧ (∀ (ctx : Nat → Bool) (m : Microwave), DigitsOk m → DigitsOk (m.PressStart ctx).1)
    ∧ (∀ (m : Microwave), DigitsOk m → m.totalSeconds ≤ 6039)
    ∧ (∀ (m : Microwave), DigitsOk m → isMMSS m.Display = true ∧ m.Display.length = 5) :=
  ⟨by decide,
   digitsOk_pressDigit,
   digitsOk_tickUpdate,
   fun ctx k s m h => digitsOk_countdown s ctx k m h,
   digitsOk_pressStart,
   totalSeconds_le,
   fun m h => ⟨isMMSS_displayString m h, displayString_length m h⟩⟩

theorem C2_digits_invariant_witness :
    DigitsOk (Microwave.tickUpdate 6039 Microwave.New).1 ∧
    DigitsOk ((Microwave.New.PressDigit 7).1) ∧
    isMMSS Microwave.New.Display = true :=
  ⟨C2_digits_invariant.2.2.1 6039 Microwave.New (by decide),
   C2_digits_invariant.2.1 Microwave.New 7 (by decide),
   (C2_digits_invariant.2.2.2.2.2.2 Microwave.New (by decide)).1⟩

/-- C3: every `PressStart` call that begins a cook cycle (not already
cooking, nonzero displayed seconds) returns — for every cancellation
schedule, i.e. whether the countdown completed or was canceled — with
`isCooking` false, all digits zero and `digitCount` zero. -/
theorem C3_pressStart_resets (ctx : Nat → Bool) (m : Microwave)
    (hc : m.isCooking = false) (hs : m.totalSeconds ≠ 0) :
    (m.PressStart ctx).1.isCooking = false ∧
    (m.PressStart ctx).1.d0 = 0 ∧ (m.PressStart ctx).1.d1 = 0 ∧
    (m.PressStart ctx).1.d2 = 0 ∧ (m.PressStart ctx).1.d3 = 0 ∧
    (m.PressStart ctx).1.digitCount = 0 := by
  simp only [Microwave.PressStart, hc, Bool.false_eq_true, if_false]
  rw [if_neg hs]
  exact ⟨rfl, rfl, rfl, rfl, rfl, rfl⟩

theorem C3_witness :
    (((⟨0, 0, 0, 5, 1, false⟩ : Microwave).PressStart (fun _ => false)).1.isCooking = false ∧
     ((⟨0, 0, 0, 5, 1, false⟩ : Microwave).PressStart (fun _ => false)).1.d0 = 0 ∧
     ((⟨0, 0, 0, 5, 1, false⟩ : Microwave).PressStart (fun _ => false)).1.d1 = 0 ∧
     ((⟨0, 0, 0, 5, 1, false⟩ : Microwave).PressStart (fun _ => false)).1.d2 = 0 ∧
     ((⟨0, 0, 0, 5, 1, false⟩ : Microwave).PressStart (fun _ => false)).1.d3 = 0 ∧
     ((⟨0, 0, 0, 5, 1, false⟩ : Microwave).PressStart (fun _ => false)).1.digitCount = 0) ∧
    (((⟨0, 0, 0, 5, 1, false⟩ : Microwave).PressStart (fun _ => true)).1.isCooking = false ∧
     ((⟨0, 0, 0, 5, 1, false⟩ : Microwave).PressStart (fun _ => true)).1.d0 = 0 ∧
     ((⟨0, 0, 0, 5, 1, false⟩ : Microwave).PressStart (fun _ => true)).1.d1 = 0 ∧
     ((⟨0, 0, 0, 5, 1, false⟩ : Microwave).PressStart (fun _ => true)).1.d2 = 0 ∧
     ((⟨0, 0, 0, 5, 1, false⟩ : Microwave).PressStart (fun _ => true)).1.d3 = 0 ∧
     ((⟨0, 0, 0, 5, 1, false⟩ : Microwave).PressStart (fun _ => true)).1.digitCount = 0) :=
  ⟨C3_pressStart_resets (fun _ => false) ⟨0, 0, 0, 5, 1, false⟩ rfl (by decide),
   C3_pressStart_resets (fun _ => true) ⟨0, 0, 0, 5, 1, false⟩ rfl (by decide)⟩

theorem countdown_canceled (ctx : Nat → Bool) :
    ∀ (s k : Nat) (m : Microwave), (∃ j, j < s ∧ ctx (k + j) = true) →
    (Microwave.countdown ctx k s m).1 = false := by
  intro s
  induction s with
  | zero =>
    rintro k m ⟨j, hj, _⟩
    omega
  | succ s ih =>
    rintro k m ⟨j, hj, hctx⟩
    simp only [Microwave.countdown]
    cases hk : ctx k with
    | true => simp [hk]
    | false =>
      simp only [hk, Bool.false_eq_true, if_false]
      have hj0 : j ≠ 0 := by
        intro h0
        subst h0
        simp only [Nat.add_zero] at hctx
        rw [hctx] at hk
        exact Bool.noConfusion hk
      apply ih
      refine ⟨j - 1, by omega, ?_⟩
      have hidx : k + 1 + (j - 1) = k + j := by omega
      rw [hidx]
      exact hctx

/-- C4: if the cancellation schedule fires at some wait before the
countdown would finish, the countdown that `PressStart` runs returns
"canceled" (`false`) rather than "completed", the final diagnostic is
`cookingCanceled`, and `PressStart` still performs the post-cycle reset
before returning.  The "already-canceled handle with seconds ≥ 1"
special case is the instance `ctx 0 = true` of the hypothesis (witness
below). -/
theorem C4_cancellation (ctx : Nat → Bool) (m : Microwave)
    (hc : m.isCooking = false) (hs : m.totalSeconds ≠ 0)
    (hcancel : ∃ j, j < m.totalSeconds ∧ ctx j = true) :
    (Microwave.countdown ctx 0 m.totalSeconds { m with isCooking := true }).1 = false ∧
    Event.cookingCanceled ∈ (m.PressStart ctx).2 ∧
    (m.PressStart ctx).1.isCooking = false ∧
    (m.PressStart ctx).1.d0 = 0 ∧ (m.PressStart ctx).1.d1 = 0 ∧
    (m.PressStart ctx).1.d2 = 0 ∧ (m.PressStart ctx).1.d3 = 0 ∧
    (m.PressStart ctx).1.digitCount = 0 := by
  have hfalse :
      (Microwave.countdown ctx 0 m.totalSeconds { m with isCooking := true }).1 = false :=
    countdown_canceled ctx m.totalSeconds 0 _ (by simpa using hcancel)
  refine ⟨hfalse, ?_, ?_, ?_, ?_, ?_, ?_, ?_⟩ <;>
    · simp only [Microwave.PressStart, hc, Bool.false_eq_true, if_false]
      rw [if_neg hs]
      try first
        | rfl
        | · rw [hfalse]
            simp

theorem C4_witness :
    (Microwave.countdown (fun _ => true) 0 5 ⟨0, 0, 0, 5, 1, true⟩).1 = false ∧
    Event.cookingCanceled ∈ ((⟨0, 0, 0, 5, 1, false⟩ : Microwave).PressStart (fun _ => true)).2 ∧
    ((⟨0, 0, 0, 5, 1, false⟩ : Microwave).PressStart (fun _ => true)).1.isCooking = false ∧
    ((⟨0, 0, 0, 5, 1, false⟩ : Microwave).PressStart (fun _ => true)).1.d0 = 0 ∧
    ((⟨0, 0, 0, 5, 1, false⟩ : Microwave).PressStart (fun _ => true)).1.d1 = 0 ∧
    ((⟨0, 0, 0, 5, 1, false⟩ : Microwave).PressStart (fun _ => true)).1.d2 = 0 ∧
    ((⟨0, 0, 0, 5, 1, false⟩ : Microwave).PressStart (fun _ => true)).1.d3 = 0 ∧
    ((⟨0, 0, 0, 5, 1, false⟩ : Microwave).PressStart (fun _ => true)).1.digitCount = 0 :=
  C4_cancellation (fun _ => true) ⟨0, 0, 0, 5, 1, false⟩ rfl (by decide)
    ⟨0, by decide, rfl⟩

/-- C5: on a countdown tick with remaining seconds in [6000, 6059]
(minutes computes to exactly 100), the digits are derived from minutes
clamped to 99 and seconds set to `remaining % 60 + 60`; with remaining
at least 6060 (minutes over 100), the digits are clamped to 99:99 and
the overflow warning diagnostic is emitted.  Both paths are total
functions — no crash. -/
theorem C5_tick_overflow (r : Nat) (m : Microwave) :
    (6000 ≤ r → r ≤ 6059 →
      (Microwave.tickUpdate r m).1.d0 = 9 ∧ (Microwave.tickUpdate r m).1.d1 = 9 ∧
      (Microwave.tickUpdate r m).1.d2 = (r % 60 + 60) / 10 ∧
      (Microwave.tickUpdate r m).1.d3 = (r % 60 + 60) % 10 ∧
      (Microwave.tickUpdate r m).1.Display =
        toString 9 ++ toString 9 ++ ":" ++
        toString ((r % 60 + 60) / 10) ++ toString ((r % 60 + 60) % 10)) ∧
    (6060 ≤ r →
      (Microwave.tickUpdate r m).1.d0 = 9 ∧ (Microwave.tickUpdate r m).1.d1 = 9 ∧
      (Microwave.tickUpdate r m).1.d2 = 9 ∧ (Microwave.tickUpdate r m).1.d3 = 9 ∧
      (Microwave.tickUpdate r m).1.Display = "99:99" ∧
      Event.overflowWarn (((r / 60 : Nat) : Int) - 99) ∈ (Microwave.tickUpdate r m).2) := by
  constructor
  · intro h1 h2
    have h60 : r / 60 = 100 := by omega
    simp only [Microwave.tickUpdate, h60]
    norm_num
    rfl
  · intro h1
    simp only [Microwave.tickUpdate]
    split_ifs <;>
      first
      | omega
      | exact ⟨rfl, rfl, rfl, rfl, by rw [Display_mk]; decide, by simp⟩

theorem C5_witness :
    ((Microwave.tickUpdate 6000 Microwave.New).1.d0 = 9 ∧
     (Microwave.tickUpdate 6000 Microwave.New).1.d1 = 9 ∧
     (Microwave.tickUpdate 6000 Microwave.New).1.d2 = 6 ∧
     (Microwave.tickUpdate 6000 Microwave.New).1.d3 = 0 ∧
     (Microwave.tickUpdate 6000 Microwave.New).1.Display = "99:60") ∧
    ((Microwave.tickUpdate 6060 Microwave.New).1.d0 = 9 ∧
     (Microwave.tickUpdate 6060 Microwave.New).1.d1 = 9 ∧
     (Microwave.tickUpdate 6060 Microwave.New).1.d2 = 9 ∧
     (Microwave.tickUpdate 6060 Microwave.New).1.d3 = 9 ∧
     (Microwave.tickUpdate 6060 Microwave.New).1.Display = "99:99" ∧
     Event.overflowWarn (((6060 / 60 : Nat) : Int) - 99) ∈
       (Microwave.tickUpdate 6060 Microwave.New).2) :=
  ⟨(C5_tick_overflow 6000 Microwave.New).1 (by decide) (by decide),
   (C5_tick_overflow 6060 Microwave.New).2 (by decide)⟩

/-- C6 (counterexample): `PressDigit(-1)` on a fresh oven is rejected as
out-of-range and emits exactly the invalid-digit event; no emitted event
records both the input value and the cooking flag (the filter over
`eventDigitRecord` is empty), contradicting the claim that every call —
including out-of-range rejections — emits such an event. -/
theorem C6_counterexample :
    (Microwave.New.PressDigit (-1)).2 = [Event.invalidDigit (-1)] ∧
    (Microwave.New.PressDigit (-1)).2.filterMap eventDigitRecord = [] ∧
    (Microwave.New.PressDigit (-1)).1 = Microwave.New := by
  decide

/-- C6 (amended): every `PressDigit` call with an in-range digit —
including calls rejected because a cook cycle is active or because the
4-digit capacity is reached — emits the "digit pressed" event recording
the input value and whether a cook cycle is active; a call with an
out-of-range digit emits only the invalid-digit event, which records
the value but not the cooking flag. -/
theorem C6_digit_event (m : Microwave) (d : Int) :
    (0 ≤ d → d ≤ 9 →
      Event.digitPressed d m.isCooking ∈ (m.PressDigit d).2 ∧
      eventDigitRecord (Event.digitPressed d m.isCooking) = some (d, m.isCooking)) ∧
    ((d < 0 ∨ d > 9) →
      (m.PressDigit d).2 = [Event.invalidDigit d] ∧
      eventDigitRecord (Event.invalidDigit d) = none) := by
  constructor
  · intro h0 h9
    refine ⟨?_, rfl⟩
    simp only [Microwave.PressDigit]
    rw [if_neg (by omega)]
    split_ifs <;> simp
  · intro h
    refine ⟨?_, rfl⟩
    simp only [Microwave.PressDigit]
    rw [if_pos h]

theorem C6_witness :
    (Event.digitPressed 5 Microwave.New.isCooking ∈ (Microwave.New.PressDigit 5).2 ∧
     eventDigitRecord (Event.digitPressed 5 Microwave.New.isCooking) =
       some (5, Microwave.New.isCooking)) ∧
    ((Microwave.New.PressDigit (-1)).2 = [Event.invalidDigit (-1)] ∧
     eventDigitRecord (Event.invalidDigit (-1)) = none) :=
  ⟨(C6_digit_event Microwave.New 5).1 (by decide) (by decide),
   (C6_digit_event Microwave.New (-1)).2 (by decide)⟩

/-- C10: from a fresh oven, pressing digit 0 four times reaches
`digits = [0,0,0,0]`, `digitCount = 4`, `isCooking = false`, whose
displayed total time is 0; this state is a fixpoint of `PressDigit`
(capacity check) and of `PressStart` (zero-time check, which does not
reset `digitCount`), so no sequence of further public operations ever
changes the state or the display again. -/
theorem C10_all_zero_fixpoint :
    pressMany Microwave.New [0, 0, 0, 0] = ⟨0, 0, 0, 0, 4, false⟩ ∧
    (⟨0, 0, 0, 0, 4, false⟩ : Microwave).isCooking = false ∧
    (⟨0, 0, 0, 0, 4, false⟩ : Microwave).totalSeconds = 0 ∧
    (∀ d : Int,
      ((⟨0, 0, 0, 0, 4, false⟩ : Microwave).PressDigit d).1 = ⟨0, 0, 0, 0, 4, false⟩) ∧
    (∀ ctx : Nat → Bool,
      ((⟨0, 0, 0, 0, 4, false⟩ : Microwave).PressStart ctx).1 = ⟨0, 0, 0, 0, 4, false⟩) ∧
    (∀ ops : List Op, runOps ⟨0, 0, 0, 0, 4, false⟩ ops = ⟨0, 0, 0, 0, 4, false⟩) ∧
    (∀ ops : List Op, (runOps ⟨0, 0, 0, 0, 4, false⟩ ops).Display = "00:00") := by
  have h4 : ∀ d : Int,
      ((⟨0, 0, 0, 0, 4, false⟩ : Microwave).PressDigit d).1 = ⟨0, 0, 0, 0, 4, false⟩ := by
    intro d
    simp only [Microwave.PressDigit]
    split_ifs <;> first | rfl | omega
  have h5 : ∀ ctx : Nat → Bool,
      ((⟨0, 0, 0, 0, 4, false⟩ : Microwave).PressStart ctx).1 = ⟨0, 0, 0, 0, 4, false⟩ := by
    intro ctx
    simp [Microwave.PressStart, Microwave.totalSeconds]
  have h6 : ∀ ops : List Op, runOps ⟨0, 0, 0, 0, 4, false⟩ ops = ⟨0, 0, 0, 0, 4, false⟩ := by
    intro ops
    induction ops with
    | nil => rfl
    | cons op rest ih =>
      cases op with
      | digit d =>
        simp only [runOps]
        rw [h4 d]
        exact ih
      | start ctx =>
        simp only [runOps]
        rw [h5 ctx]
        exact ih
  exact ⟨by decide, rfl, rfl, h4, h5, h6, fun ops => by rw [h6 ops]; decide⟩
